import Mathlib

/-!
Shallow embedding of the cloud-file-storage upload pipeline, virus scanner,
file validator, share-link routes and metadata-store read operations,
translated from the TypeScript source in src/.  Strings are modelled by
Lean `String`; byte buffers by `List Nat`; timestamps by `Nat`.  Every
operation used on strings is implemented structurally over `String.toList`
so that concrete instances evaluate inside the kernel.
-/

namespace CloudStore

/-- Lower-case a string character by character.  Embeds the JavaScript
`String.prototype.toLowerCase` for the ASCII names used by this system. -/
def lowerStr (s : String) : String :=
  String.mk (s.toList.map Char.toLower)

/-- Boolean string equality via the underlying character lists. -/
def streq (a b : String) : Bool :=
  a.toList == b.toList

/-- Join a list of strings with a comma and a space.  Embeds
`Array.prototype.join(", ")` used by `fileValidator.validateBatch`. -/
def joinComma : List String → String
  | [] => ""
  | [x] => x
  | x :: rest => x ++ ", " ++ joinComma rest

theorem streq_iff (a b : String) : streq a b = true ↔ a = b := by
  constructor
  · intro h
    cases a; cases b
    simp only [streq, String.toList] at h
    exact congrArg String.mk (by exact_mod_cast beq_iff_eq.mp h)
  · intro h
    subst h
    simp [streq]

/- ---------------------------------------------------------------------
# Content Scanner (src/lib/virus-scanner.ts)
--------------------------------------------------------------------- -/

/-- Result type of `virusScanner.scanBuffer`. -/
inductive ScanResult
  | clean
  | infected
  | error
deriving DecidableEq, Repr

/-- The fixed denylist of dangerous extensions from `scanBuffer`. -/
def dangerousExtensions : List String :=
  [".exe", ".bat", ".cmd", ".scr", ".pif", ".com", ".vbs", ".js", ".jar",
   ".msi", ".deb", ".rpm"]

def safeImageExtensions : List String :=
  [".jpg", ".jpeg", ".png", ".gif", ".bmp", ".webp", ".svg", ".ico"]

def safeDocumentExtensions : List String :=
  [".pdf", ".doc", ".docx", ".xls", ".xlsx", ".ppt", ".pptx", ".txt", ".rtf"]

def safeMediaExtensions : List String :=
  [".mp3", ".mp4", ".avi", ".mov", ".wmv", ".wav", ".ogg", ".flac"]

def allSafeExtensions : List String :=
  safeImageExtensions ++ safeDocumentExtensions ++ safeMediaExtensions

/-- Index of the last occurrence of a dot in the character list, if any.
Embeds `fileName.lastIndexOf(".")` (which yields -1 when absent, modelled
by `none`). -/
def lastDotIdx (s : List Char) : Option Nat :=
  ((List.range s.length).filter (fun i => s.getD i ' ' = '.')).getLast?

/-- The extension extracted by `scanBuffer`:
`fileName.toLowerCase().substring(fileName.lastIndexOf("."))`.  When the
name has no dot, JavaScript `substring(-1)` clamps to 0 and returns the
whole lower-cased name. -/
def fileExtensionOf (fileName : String) : String :=
  let chars := fileName.toList
  let lowered := chars.map Char.toLower
  match lastDotIdx chars with
  | some i => String.mk (lowered.drop i)
  | none => String.mk lowered

/-- The two-byte Windows PE executable header signature. -/
def peSignature : List Nat := [0x4d, 0x5a]

/-- The four-byte ELF executable header signature. -/
def elfSignature : List Nat := [0x7f, 0x45, 0x4c, 0x46]

/-- Embeds `virusScanner.containsSignature`: a sliding exact-match search
of `signature` over `buffer`.  The source loops `i` from `0` to
`buffer.length - signature.length` inclusive (no iterations when the
signature is longer than the buffer) and compares byte by byte. -/
def containsSignature (buffer signature : List Nat) : Bool :=
  (List.range (buffer.length + 1 - signature.length)).any (fun i =>
    (List.range signature.length).all (fun j =>
      buffer.getD (i + j) 0 == signature.getD j 1))

/-- Embeds `virusScanner.scanBuffer`.  The source iterates over the list
of executable signatures `[PE, ELF]` and short-circuits on the first
match; the loop is unrolled into the equivalent if-chain.  The `catch`
branch returning `"error"` is unreachable in this pure model. -/
def scanBuffer (buffer : List Nat) (fileName : String) : ScanResult :=
  let fileExtension := fileExtensionOf fileName
  if fileExtension ∈ dangerousExtensions then
    ScanResult.infected
  else if fileExtension ∈ allSafeExtensions then
    if containsSignature buffer peSignature then ScanResult.infected
    else if containsSignature buffer elfSignature then ScanResult.infected
    else ScanResult.clean
  else
    if containsSignature buffer peSignature then ScanResult.infected
    else if containsSignature buffer elfSignature then ScanResult.infected
    else ScanResult.clean

/- ---------------------------------------------------------------------
# Validator (src/lib/file-validator.ts)
--------------------------------------------------------------------- -/

/-- A candidate file as the orchestrator sees it: metadata plus content
bytes.  The extra field `procFails` is an environment oracle: it records
whether the processing / object-store step for this file would throw
(the `catch` branch of the per-file loop in the upload route). -/
structure JsFile where
  name : String
  size : Nat
  type : String
  content : List Nat
  procFails : Bool
deriving DecidableEq, Repr

structure ValidationResult where
  isValid : Bool
  errors : List String
deriving DecidableEq, Repr

def MAX_FILE_SIZE : Nat := 100 * 1024 * 1024

def ALLOWED_TYPES : List String :=
  ["image/jpeg", "image/png", "image/gif", "image/webp",
   "video/mp4", "video/webm", "video/quicktime",
   "audio/mp3", "audio/wav", "audio/ogg",
   "application/pdf", "application/msword",
   "application/vnd.openxmlformats-officedocument.wordprocessingml.document",
   "application/vnd.ms-excel",
   "application/vnd.openxmlformats-officedocument.spreadsheetml.sheet",
   "text/plain", "text/csv",
   "application/zip", "application/x-rar-compressed"]

/-- Embeds the dangerous-name regex tests of `validateFile`
(case-insensitive suffix tests for `.exe`, `.bat`, `.cmd`, `.scr`). -/
def matchesDangerousName (name : String) : Bool :=
  [".exe", ".bat", ".cmd", ".scr"].any
    (fun ext => List.isSuffixOf ext.toList (lowerStr name).toList)

/-- Embeds `fileValidator.validateFile`.  Errors are pushed in source
order: size, type, name length, dangerous name. -/
def validateFile (file : JsFile) : ValidationResult :=
  let e1 : List String :=
    if MAX_FILE_SIZE < file.size then ["File size exceeds 100MB limit"] else []
  let e2 : List String :=
    if file.type ∈ ALLOWED_TYPES then []
    else ["File type " ++ file.type ++ " is not allowed"]
  let e3 : List String :=
    if 255 < file.name.length then
      ["File name is too long (max 255 characters)"] else []
  let e4 : List String :=
    if matchesDangerousName file.name then
      ["File type is not allowed for security reasons"] else []
  let errors := e1 ++ e2 ++ e3 ++ e4
  { isValid := errors.length == 0, errors := errors }

/-- Total size of a batch: `files.reduce((sum, file) => sum + file.size, 0)`. -/
def totalSizeOf (files : List JsFile) : Nat :=
  files.foldl (fun sum f => sum + f.size) 0

/-- Embeds `fileValidator.validateBatch`: the 500 MiB batch ceiling check
followed by per-file validation, all errors collected together. -/
def validateBatch (files : List JsFile) : ValidationResult :=
  let totalSize := totalSizeOf files
  let batchErrors : List String :=
    if 500 * 1024 * 1024 < totalSize then
      ["Total batch size exceeds 500MB limit"] else []
  let fileErrors : List String :=
    files.enum.filterMap (fun p =>
      let result := validateFile p.2
      if result.isValid then none
      else some ("File " ++ toString (p.1 + 1) ++ " (" ++ p.2.name ++ "): "
                  ++ joinComma result.errors))
  let allErrors := batchErrors ++ fileErrors
  { isValid := allErrors.length == 0, errors := allErrors }

/- ---------------------------------------------------------------------
# Object-store keys (src/lib/s3.ts)
--------------------------------------------------------------------- -/

/-- Embeds the sanitisation `fileName.replace(/[^a-zA-Z0-9.-]/g, "_")`. -/
def sanitizeFileName (fileName : String) : String :=
  String.mk (fileName.toList.map (fun c =>
    if c.isAlphanum || c = '.' || c = '-' then c else '_'))

/-- Embeds `generateS3Key`.  The source reads `Date.now()` internally;
here the timestamp is an explicit parameter.  The local the source calls
prefix is inlined into the result. -/
def generateS3Key (userId fileName : String) (fileType : String)
    (timestamp : Nat) : String :=
  (if fileType = "thumbnail" then "thumbnails" else "files")
    ++ "/" ++ userId ++ "/" ++ toString timestamp ++ "-"
    ++ sanitizeFileName fileName

/-- Split a character list at every slash, embedding
`originalKey.split("/")`. -/
def splitOnSlash (cs : List Char) : List (List Char) :=
  match cs with
  | [] => [[]]
  | c :: rest =>
    let r := splitOnSlash rest
    if c = '/' then [] :: r
    else
      match r with
      | [] => [[c]]
      | h :: t => (c :: h) :: t

/-- Embeds `getThumbnailKey`: takes `parts[parts.length - 1]` as the file
name and `parts[1]` as the user id. -/
def getThumbnailKey (originalKey : String) : String :=
  let parts := (splitOnSlash originalKey.toList).map String.mk
  let fileName := parts.getD (parts.length - 1) ""
  let userId := parts.getD 1 ""
  "thumbnails/" ++ userId ++ "/thumb-" ++ fileName

/-- Replace the first occurrence of `pat` in `cs` by `rep`, embedding the
JavaScript `String.prototype.replace` with a string pattern. -/
def replaceFirst (cs pat rep : List Char) : List Char :=
  match cs with
  | [] => []
  | c :: rest =>
    if List.isPrefixOf pat (c :: rest) then rep ++ (c :: rest).drop pat.length
    else c :: replaceFirst rest pat rep

/-- The thumbnail key the upload route records in FileRecord metadata:
`s3Key.replace("files/", "thumbnails/thumb-")`. -/
def recordedThumbnailS3Key (s3Key : String) : String :=
  String.mk (replaceFirst s3Key.toList "files/".toList "thumbnails/thumb-".toList)

/-- The pair of object-store keys a processed image upload produces.
`fileProcessor.processImage` computes the thumbnail key as
`getThumbnailKey(generateS3Key(userId, fileName))` at processing time
`tProcess`, while `fileProcessor.uploadProcessedFile` later computes the
key of the original as a fresh `generateS3Key(userId, fileName)` at upload
time `tUpload`.  First component: key of the stored original; second:
key under which the thumbnail is stored. -/
def processedUploadKeys (userId fileName : String) (tProcess tUpload : Nat) :
    String × String :=
  (generateS3Key userId fileName "file" tUpload,
   getThumbnailKey (generateS3Key userId fileName "file" tProcess))

/- ---------------------------------------------------------------------
# Upload Orchestrator (src/app/api/files/upload/route.ts)
--------------------------------------------------------------------- -/

/-- Status values of `FileRecord.virusScanStatus`. -/
inductive VirusScanStatus
  | pending
  | clean
  | infected
  | scanError
deriving DecidableEq, Repr

structure UserRec where
  storageUsed : Nat
  storageLimit : Nat
deriving DecidableEq, Repr

/-- Entry pushed onto `blockedFiles` by the upload route. -/
structure BlockedEntry where
  name : String
  reason : String
  size : Nat
deriving DecidableEq, Repr

/-- Summary pushed onto `uploadedFiles` (claim-relevant fields). -/
structure UploadedSummary where
  name : String
  size : Nat
deriving DecidableEq, Repr

/-- The FileRecord created by `db.files.create` during an upload
(claim-relevant fields). -/
structure UploadRecord where
  userId : String
  name : String
  originalName : String
  size : Nat
  type : String
  virusScanStatus : VirusScanStatus
deriving DecidableEq, Repr

/-- Accumulator of the per-file loop in the upload route. -/
structure BatchAcc where
  uploadedFiles : List UploadedSummary
  blockedFiles : List BlockedEntry
  totalUploadedSize : Nat
  objectWrites : Nat
  records : List UploadRecord
deriving DecidableEq, Repr

def emptyAcc : BatchAcc :=
  { uploadedFiles := [], blockedFiles := [], totalUploadedSize := 0,
    objectWrites := 0, records := [] }

/-- Embeds `fileProcessor.needsProcessing`. -/
def needsProcessing (contentType : String) : Bool :=
  List.isPrefixOf "image/".toList contentType.toList
    || List.isPrefixOf "video/".toList contentType.toList

/-- Number of object-store writes a successfully handled file causes:
`processImage` uploads the original and a thumbnail (2); `processVideo`
produces no thumbnail buffer and the direct path uploads only the
original (1). -/
def writesFor (f : JsFile) : Nat :=
  if List.isPrefixOf "image/".toList f.type.toList then 2 else 1

/-- One iteration of the per-file loop of the upload route: scan, block
infected files, block files whose processing or storage throws
(`procFails`), otherwise store, record, and accumulate the size. -/
def processFile (uid : String) (acc : BatchAcc) (f : JsFile) : BatchAcc :=
  if scanBuffer f.content f.name = ScanResult.infected then
    { acc with blockedFiles :=
        acc.blockedFiles ++ [⟨f.name, "Virus/malware detected", f.size⟩] }
  else if f.procFails then
    { acc with blockedFiles :=
        acc.blockedFiles ++ [⟨f.name, "Upload error", f.size⟩] }
  else
    { uploadedFiles := acc.uploadedFiles ++ [⟨f.name, f.size⟩],
      blockedFiles := acc.blockedFiles,
      totalUploadedSize := acc.totalUploadedSize + f.size,
      objectWrites := acc.objectWrites + writesFor f,
      records := acc.records ++
        [{ userId := uid, name := f.name, originalName := f.name,
           size := f.size, type := f.type,
           virusScanStatus :=
             if scanBuffer f.content f.name = ScanResult.clean then
               VirusScanStatus.clean else VirusScanStatus.pending }] }

/-- The observable outcome of one `POST /api/files/upload` request:
response fields plus the side effects on the stores.  `storageUpdates`
lists, in order, every value written to the user record by
`db.users.updateStorageUsed`. -/
structure UploadOutcome where
  status : Nat
  details : List String
  uploadedCount : Nat
  blockedCount : Nat
  blockedFiles : List BlockedEntry
  totalSize : Nat
  userAfter : UserRec
  objectWrites : Nat
  records : List UploadRecord
  storageUpdates : List Nat
deriving DecidableEq, Repr

/-- Embeds the `POST` handler of the upload route after authentication
(the token and user lookups are modelled as a given `user`/`uid`):
empty-batch check, batch validation, quota check, per-file loop, and the
single storage update after the loop. -/
def postUpload (user : UserRec) (uid : String) (files : List JsFile) :
    UploadOutcome :=
  if files.length = 0 then
    { status := 400, details := [], uploadedCount := 0, blockedCount := 0,
      blockedFiles := [], totalSize := 0, userAfter := user,
      objectWrites := 0, records := [], storageUpdates := [] }
  else
    let validation := validateBatch files
    if validation.isValid = false then
      { status := 400, details := validation.errors, uploadedCount := 0,
        blockedCount := 0, blockedFiles := [], totalSize := 0,
        userAfter := user, objectWrites := 0, records := [],
        storageUpdates := [] }
    else
      let totalSize := totalSizeOf files
      if user.storageLimit < user.storageUsed + totalSize then
        { status := 413,
          details := ["Total size: " ++ toString totalSize ++ " bytes",
                      "Available: "
                        ++ toString ((user.storageLimit : Int)
                              - (user.storageUsed : Int)) ++ " bytes"],
          uploadedCount := 0, blockedCount := 0, blockedFiles := [],
          totalSize := 0, userAfter := user, objectWrites := 0,
          records := [], storageUpdates := [] }
      else
        let acc := files.foldl (processFile uid) emptyAcc
        { status := 200, details := [],
          uploadedCount := acc.uploadedFiles.length,
          blockedCount := acc.blockedFiles.length,
          blockedFiles := acc.blockedFiles,
          totalSize := acc.totalUploadedSize,
          userAfter := { user with
            storageUsed := user.storageUsed + acc.totalUploadedSize },
          objectWrites := acc.objectWrites,
          records := acc.records,
          storageUpdates := [user.storageUsed + acc.totalUploadedSize] }

/- Specification-side characterisations of the per-file loop, proved
equal to the fold below. -/

/-- The blocked-list entry a file contributes, if any. -/
def blockedEntryOf (f : JsFile) : Option BlockedEntry :=
  if scanBuffer f.content f.name = ScanResult.infected then
    some ⟨f.name, "Virus/malware detected", f.size⟩
  else if f.procFails then some ⟨f.name, "Upload error", f.size⟩
  else none

/-- The uploaded-list entry a file contributes, if any. -/
def uploadedOf (f : JsFile) : Option UploadedSummary :=
  if scanBuffer f.content f.name = ScanResult.infected then none
  else if f.procFails then none
  else some ⟨f.name, f.size⟩

/-- The FileRecord a file contributes, if any. -/
def recordOf (uid : String) (f : JsFile) : Option UploadRecord :=
  if scanBuffer f.content f.name = ScanResult.infected then none
  else if f.procFails then none
  else some { userId := uid, name := f.name, originalName := f.name,
              size := f.size, type := f.type,
              virusScanStatus :=
                if scanBuffer f.content f.name = ScanResult.clean then
                  VirusScanStatus.clean else VirusScanStatus.pending }

/-- Size charged to quota for one file: its size when it is stored and
recorded, zero when it is blocked (infected) or errored. -/
def storedSize (f : JsFile) : Nat :=
  if scanBuffer f.content f.name = ScanResult.infected then 0
  else if f.procFails then 0
  else f.size

def storedTotal : List JsFile → Nat
  | [] => 0
  | f :: fs => storedSize f + storedTotal fs

/-- Object-store writes contributed by one file. -/
def storedWrites (f : JsFile) : Nat :=
  if scanBuffer f.content f.name = ScanResult.infected then 0
  else if f.procFails then 0
  else writesFor f

def writesTotal : List JsFile → Nat
  | [] => 0
  | f :: fs => storedWrites f + writesTotal fs

/- ---------------------------------------------------------------------
# Metadata Store (src/lib/database.ts) and share routes
--------------------------------------------------------------------- -/

/-- A document of the `files` collection (claim-relevant fields). -/
structure FileDoc where
  id : String
  userId : String
  name : String
  size : Nat
  type : String
  s3Key : String
  tags : List String
  uploadedAt : Nat
  isDeleted : Bool
  deletedAt : Option Nat
  virusScanStatus : VirusScanStatus
deriving DecidableEq, Repr

/-- A document of the `shareLinks` collection (claim-relevant fields).
`password` stores the bcrypt credential; `bcrypt.compare` is modelled as
string equality of the supplied password with the stored credential. -/
structure ShareLinkRec where
  id : String
  fileId : String
  userId : String
  password : Option String
  expiresAt : Option Nat
  allowDownload : Bool
  allowPreview : Bool
  accessCount : Nat
  isActive : Bool
deriving DecidableEq, Repr

structure DbState where
  files : List FileDoc
  shareLinks : List ShareLinkRec
deriving DecidableEq, Repr

/-- Embeds `db.files.findById`: `findOne({ _id, isDeleted: false })`. -/
def filesFindById (docs : List FileDoc) (i : String) : Option FileDoc :=
  docs.find? (fun f => streq f.id i && !f.isDeleted)

/-- Embeds `db.files.findByS3Key`: `findOne({ s3Key, isDeleted: false })`. -/
def filesFindByS3Key (docs : List FileDoc) (key : String) : Option FileDoc :=
  docs.find? (fun f => streq f.s3Key key && !f.isDeleted)

/-- The `sort({ uploadedAt: -1 })` ordering used by the file queries. -/
def sortByUploadedDesc (docs : List FileDoc) : List FileDoc :=
  List.insertionSort (fun a b => b.uploadedAt ≤ a.uploadedAt) docs

/-- Embeds `db.files.findByUserId`:
`find({ userId, isDeleted: false }).sort({ uploadedAt: -1 })` with the
optional `skip` and `limit` (falsy arguments are `none`). -/
def filesFindByUserId (docs : List FileDoc) (uid : String)
    (limit skip : Option Nat) : List FileDoc :=
  let matched := docs.filter (fun f => streq f.userId uid && !f.isDeleted)
  let sorted := sortByUploadedDesc matched
  let skipped := match skip with | some n => sorted.drop n | none => sorted
  match limit with | some n => skipped.take n | none => skipped

/-- Sliding containment test of one character list inside another. -/
def charsContain (pat : List Char) : List Char → Bool
  | [] => pat.isEmpty
  | c :: t => List.isPrefixOf pat (c :: t) || charsContain pat t

/-- The `$regex` with option `"i"` of `db.files.search`: case-insensitive
substring containment. -/
def containsCI (hay pat : String) : Bool :=
  charsContain (lowerStr pat).toList (lowerStr hay).toList

/-- Embeds `db.files.search`: owner plus `isDeleted: false` plus an `$or`
of a name match and a tag match, sorted by `uploadedAt` descending and
limited. -/
def filesSearch (docs : List FileDoc) (uid q : String) (limit : Nat) :
    List FileDoc :=
  (sortByUploadedDesc (docs.filter (fun f =>
      streq f.userId uid && !f.isDeleted
        && (containsCI f.name q
              || f.tags.any (fun t => containsCI t q))))).take limit

/-- Embeds `db.files.delete`: `updateOne({ _id }, { $set: { isDeleted:
true, deletedAt } })`.  MongoDB `_id` values are unique, so updating
every document with this id coincides with `updateOne`. -/
def filesDelete (docs : List FileDoc) (i : String) (now : Nat) :
    List FileDoc :=
  docs.map (fun f =>
    if streq f.id i then { f with isDeleted := true, deletedAt := some now }
    else f)

/-- Embeds `db.shareLinks.findById`: `findOne({ _id, isActive: true })`. -/
def findShareLink (dbS : DbState) (sid : String) : Option ShareLinkRec :=
  dbS.shareLinks.find? (fun l => streq l.id sid && l.isActive)

/-- The expiry test used by the share routes:
`shareLink.expiresAt && new Date(shareLink.expiresAt) < new Date()`. -/
def linkExpired (l : ShareLinkRec) (now : Nat) : Bool :=
  match l.expiresAt with
  | some t => decide (t < now)
  | none => false

/-- Embeds `GET /api/shared/[shareId]` (public resolve); result is the
HTTP status. -/
def resolveShared (dbS : DbState) (now : Nat) (sid : String) : Nat :=
  match findShareLink dbS sid with
  | none => 404
  | some l =>
    if linkExpired l now then 410
    else
      match filesFindById dbS.files l.fileId with
      | none => 404
      | some _ => 200

/-- Embeds `POST /api/shared/[shareId]/verify`.  The route checks only
the password: a missing stored password verifies trivially; a missing
supplied password makes `bcrypt.compare` throw, caught as 500.  The route
performs no expiry check. -/
def verifyShared (dbS : DbState) (sid : String) (pw : Option String) : Nat :=
  match findShareLink dbS sid with
  | none => 404
  | some l =>
    match l.password with
    | none => 200
    | some stored =>
      match pw with
      | none => 500
      | some p => if streq p stored then 200 else 401

/-- The tail of the shared download route after the password gate:
download permission, expiry, file lookup, then content service.  Second
component records whether the access counter was incremented (the
content-serving branch). -/
def downloadGate (dbS : DbState) (now : Nat) (l : ShareLinkRec) :
    Nat × Bool :=
  if !l.allowDownload then (403, false)
  else if linkExpired l now then (410, false)
  else
    match filesFindById dbS.files l.fileId with
    | none => (404, false)
    | some _ => (200, true)

/-- Embeds `POST /api/shared/[shareId]/download`: password check (401 on
missing or wrong password), then permission, expiry, file lookup, access
increment and content service.  No `virusScanStatus` check appears
anywhere on this path. -/
def downloadShared (dbS : DbState) (now : Nat) (sid : String)
    (pw : Option String) : Nat × Bool :=
  match findShareLink dbS sid with
  | none => (404, false)
  | some l =>
    match l.password with
    | none => downloadGate dbS now l
    | some stored =>
      match pw with
      | none => (401, false)
      | some p => if streq p stored then downloadGate dbS now l
                  else (401, false)

/-- Embeds the owner download endpoint (`GET /api/files/[id]/download`):
auth modelled as a given `requesterId`; 404 on missing record, 403 on
wrong owner, 403 on `virusScanStatus === "infected"`, else a signed URL
(200). -/
def ownerDownload (dbS : DbState) (requesterId : String)
    (fileId : String) : Nat :=
  match filesFindById dbS.files fileId with
  | none => 404
  | some f =>
    if !(streq f.userId requesterId) then 403
    else if f.virusScanStatus = VirusScanStatus.infected then 403
    else 200

/- ---------------------------------------------------------------------
# Theorems
--------------------------------------------------------------------- -/

/-- Claim C7: for every file name whose extension (the text from the last
dot, compared case-insensitively) belongs to the fixed dangerous set,
`scanBuffer` returns infected for every possible buffer content, without
inspecting the bytes. -/
theorem scan_dangerous_extension_infected (buffer : List Nat)
    (fileName : String)
    (h : fileExtensionOf fileName ∈ dangerousExtensions) :
    scanBuffer buffer fileName = ScanResult.infected := by
  simp only [scanBuffer]
  rw [if_pos h]

/-- Witness for C7 at the concrete name `virus.exe` and an arbitrary
buffer. -/
theorem scan_dangerous_extension_infected_witness :
    fileExtensionOf "virus.exe" ∈ dangerousExtensions ∧
    scanBuffer [0, 1, 2] "virus.exe" = ScanResult.infected :=
  ⟨by decide, scan_dangerous_extension_infected [0, 1, 2] "virus.exe" (by decide)⟩

/-- Claim C9: `validateBatch` reports the batch invalid whenever the
total size exceeds the 500 MiB ceiling, and in general `isValid` holds
exactly when the collected error list is empty. -/
theorem validateBatch_ceiling_and_errors (files : List JsFile) :
    (500 * 1024 * 1024 < totalSizeOf files →
        (validateBatch files).isValid = false) ∧
    ((validateBatch files).isValid = true ↔
        (validateBatch files).errors = []) := by
  have hfield : (validateBatch files).isValid
      = ((validateBatch files).errors.length == 0) := rfl
  constructor
  · intro h
    have hhead : ∃ rest, (validateBatch files).errors
        = "Total batch size exceeds 500MB limit" :: rest := by
      simp only [validateBatch]
      rw [if_pos h]
      exact ⟨_, rfl⟩
    obtain ⟨rest, hr⟩ := hhead
    rw [hfield, hr]
    simp
  · constructor
    · intro h
      rw [hfield] at h
      exact List.length_eq_zero.mp (beq_iff_eq.mp h)
    · intro h
      rw [hfield, h]
      simp

/-- Witness for C9: a six-file batch, each file individually valid
(exactly at the 100 MiB per-file cap), with 600 MiB total. -/
def demoCapFile (nm : String) : JsFile :=
  { name := nm, size := 100 * 1024 * 1024, type := "video/mp4",
    content := [], procFails := false }

def demoBigBatch : List JsFile :=
  [demoCapFile "a.mp4", demoCapFile "b.mp4", demoCapFile "c.mp4",
   demoCapFile "d.mp4", demoCapFile "e.mp4", demoCapFile "f.mp4"]

theorem validateBatch_ceiling_and_errors_witness :
    demoBigBatch.all (fun f => (validateFile f).isValid) = true ∧
    500 * 1024 * 1024 < totalSizeOf demoBigBatch ∧
    (validateBatch demoBigBatch).isValid = false :=
  ⟨by decide, by decide,
    (validateBatch_ceiling_and_errors demoBigBatch).1 (by decide)⟩

/-- Claim C6 is refuted: the key under which the thumbnail is persisted
is not a function of the key under which the original is stored.  With
the same stored original key (upload timestamp 0) two different
processing timestamps give two different thumbnail keys; applying
`getThumbnailKey` to the stored original key does not return the
persisted thumbnail key; and even with identical timestamps the
`thumbnailS3Key` recorded in FileRecord metadata differs from the key the
thumbnail was actually stored under. -/
theorem thumbnail_key_not_derived_from_original :
    (processedUploadKeys "u" "a.png" 1 0).1
        = (processedUploadKeys "u" "a.png" 2 0).1 ∧
    (processedUploadKeys "u" "a.png" 1 0).2
        ≠ (processedUploadKeys "u" "a.png" 2 0).2 ∧
    getThumbnailKey (processedUploadKeys "u" "a.png" 1 0).1
        ≠ (processedUploadKeys "u" "a.png" 1 0).2 ∧
    recordedThumbnailS3Key (processedUploadKeys "u" "a.png" 1 1).1
        ≠ (processedUploadKeys "u" "a.png" 1 1).2 := by
  refine ⟨by decide, by decide, by decide, by decide⟩

/- Demo data for the share-link claims. -/

def demoExpiredLink : ShareLinkRec :=
  { id := "s1", fileId := "f1", userId := "u1", password := none,
    expiresAt := some 5, allowDownload := true, allowPreview := true,
    accessCount := 0, isActive := true }

def demoSharedFile : FileDoc :=
  { id := "f1", userId := "u1", name := "doc.pdf", size := 10,
    type := "application/pdf", s3Key := "files/u1/1-doc.pdf", tags := [],
    uploadedAt := 1, isDeleted := false, deletedAt := none,
    virusScanStatus := VirusScanStatus.clean }

def demoShareDb : DbState :=
  { files := [demoSharedFile], shareLinks := [demoExpiredLink] }

/-- Counterexample to claim C4 as stated: an expired, still-active,
passwordless share link is successfully verified by
`POST /shared/[shareId]/verify`, because that route never checks
`expiresAt`. -/
theorem expired_link_verify_succeeds :
    linkExpired demoExpiredLink 10 = true ∧
    demoExpiredLink.isActive = true ∧
    verifyShared demoShareDb "s1" (some "anything") = 200 := by
  refine ⟨by decide, by decide, by decide⟩

/-- Claim C4 as amended: once `expiresAt` has passed, resolve and
download fail (non-200) regardless of the `isActive` flag; the verify
route is excluded because it performs no expiry check. -/
theorem expired_link_resolve_download_fail (dbS : DbState) (now : Nat)
    (sid : String) (pw : Option String)
    (h : dbS.shareLinks.all
        (fun l => !(streq l.id sid) || linkExpired l now) = true) :
    resolveShared dbS now sid ≠ 200 ∧
    (downloadShared dbS now sid pw).1 ≠ 200 := by
  cases hfind : findShareLink dbS sid with
  | none =>
    constructor <;> simp [resolveShared, downloadShared, hfind]
  | some l =>
    have hfind2 := hfind
    simp only [findShareLink] at hfind2
    have hmem : l ∈ dbS.shareLinks :=
      List.mem_of_find?_eq_some hfind2
    have hp := List.find?_some hfind2
    simp only [Bool.and_eq_true] at hp
    have hsid : streq l.id sid = true := hp.1
    have hexp : linkExpired l now = true := by
      have hall := List.all_eq_true.mp h l hmem
      rcases Bool.or_eq_true_iff.mp hall with h1 | h2
      · rw [hsid] at h1
        simp at h1
      · exact h2
    have hgate : (downloadGate dbS now l).1 ≠ 200 := by
      simp only [downloadGate, hexp]
      cases l.allowDownload <;> simp
    constructor
    · simp [resolveShared, hfind, hexp]
    · simp only [downloadShared, hfind]
      rcases hpw : l.password with _ | stored
      · exact hgate
      · rcases pw with _ | p
        · simp
        · by_cases hc : streq p stored = true
          · simpa [hc] using hgate
          · simp [hc]

/-- Witness for the amended C4 at the concrete expired link. -/
theorem expired_link_resolve_download_fail_witness :
    (demoShareDb.shareLinks.all
        (fun l => !(streq l.id "s1") || linkExpired l 10) = true) ∧
    (resolveShared demoShareDb 10 "s1" ≠ 200 ∧
      (downloadShared demoShareDb 10 "s1" none).1 ≠ 200) :=
  ⟨by decide,
    expired_link_resolve_download_fail demoShareDb 10 "s1" none (by decide)⟩

/- Demo data for claim C5. -/

def demoInfectedFile : FileDoc :=
  { id := "f2", userId := "u1", name := "bad.pdf", size := 10,
    type := "application/pdf", s3Key := "files/u1/2-bad.pdf", tags := [],
    uploadedAt := 2, isDeleted := false, deletedAt := none,
    virusScanStatus := VirusScanStatus.infected }

def demoInfectedLink : ShareLinkRec :=
  { id := "s2", fileId := "f2", userId := "u1", password := none,
    expiresAt := none, allowDownload := true, allowPreview := true,
    accessCount := 0, isActive := true }

def demoInfectedDb : DbState :=
  { files := [demoInfectedFile], shareLinks := [demoInfectedLink] }

/-- Claim C5 fails on the code: for a FileRecord with
`virusScanStatus = infected`, the owner download endpoint refuses (403)
but the shared-link download endpoint reaches the content-serving branch
(200, access counter incremented), because that route never consults
`virusScanStatus`. -/
theorem infected_file_shared_download_served :
    demoInfectedFile.virusScanStatus = VirusScanStatus.infected ∧
    ownerDownload demoInfectedDb "u1" "f2" = 403 ∧
    downloadShared demoInfectedDb 0 "s2" none = (200, true) := by
  refine ⟨by decide, by decide, by decide⟩

/-- The sliding exact-match search of the scanner finds a signature
exactly when the signature occurs as a contiguous subsequence of the
buffer. -/
theorem containsSignature_iff (buffer signature : List Nat) :
    containsSignature buffer signature = true ↔ signature <:+: buffer := by
  rw [List.isInfix_iff]
  constructor
  · intro h
    simp only [containsSignature, List.any_eq_true, List.mem_range,
      List.all_eq_true] at h
    obtain ⟨i, hi, hm⟩ := h
    refine ⟨i, by omega, ?_⟩
    intro j hj
    have hb := hm j hj
    have heq : buffer.getD (i + j) 0 = signature.getD j 1 := beq_iff_eq.mp hb
    have hlt : j + i < buffer.length := by omega
    rw [List.getElem?_eq_getElem hlt]
    rw [List.getD_eq_getElem?_getD, List.getD_eq_getElem?_getD] at heq
    rw [List.getElem?_eq_getElem (by omega : i + j < buffer.length),
      List.getElem?_eq_getElem hj] at heq
    simp only [Option.getD_some] at heq
    congr 1
    rw [← heq]
    congr 1
    omega
  · rintro ⟨k, hk, hw⟩
    simp only [containsSignature, List.any_eq_true, List.mem_range,
      List.all_eq_true]
    refine ⟨k, by omega, ?_⟩
    intro j hj
    have hb := hw j hj
    rw [List.getElem?_eq_getElem (by omega : j + k < buffer.length)] at hb
    have heq := Option.some.inj hb
    apply beq_iff_eq.mpr
    rw [List.getD_eq_getElem?_getD, List.getD_eq_getElem?_getD,
      List.getElem?_eq_getElem (by omega : k + j < buffer.length),
      List.getElem?_eq_getElem hj]
    simp only [Option.getD_some]
    rw [← heq]
    congr 1
    omega

/-- Every safe-container extension is absent from the dangerous set. -/
theorem safe_ext_not_dangerous :
    ∀ e ∈ allSafeExtensions, e ∉ dangerousExtensions := by decide

/-- Claim C8: for a file whose extension belongs to the safe-container
set, `scanBuffer` returns infected exactly when the buffer contains the
PE header or the ELF header as a contiguous subsequence, and clean
otherwise. -/
theorem scan_safe_container_signature (buffer : List Nat)
    (fileName : String)
    (h : fileExtensionOf fileName ∈ allSafeExtensions) :
    (scanBuffer buffer fileName = ScanResult.infected ↔
      (peSignature <:+: buffer ∨ elfSignature <:+: buffer)) ∧
    (scanBuffer buffer fileName = ScanResult.clean ↔
      ¬ (peSignature <:+: buffer ∨ elfSignature <:+: buffer)) := by
  have hnd : fileExtensionOf fileName ∉ dangerousExtensions :=
    safe_ext_not_dangerous _ h
  simp only [scanBuffer]
  rw [if_neg hnd, if_pos h]
  by_cases h1 : containsSignature buffer peSignature = true
  · have hin : peSignature <:+: buffer := (containsSignature_iff _ _).mp h1
    simp [h1, hin]
  · by_cases h2 : containsSignature buffer elfSignature = true
    · have hin : elfSignature <:+: buffer := (containsSignature_iff _ _).mp h2
      simp [h1, h2, hin]
    · have n1 : ¬ peSignature <:+: buffer :=
        fun hc => h1 ((containsSignature_iff _ _).mpr hc)
      have n2 : ¬ elfSignature <:+: buffer :=
        fun hc => h2 ((containsSignature_iff _ _).mpr hc)
      simp [h1, h2, n1, n2]

/-- Witness for C8 at the concrete name `a.jpg` and a buffer holding an
embedded PE header. -/
theorem scan_safe_container_signature_witness :
    fileExtensionOf "a.jpg" ∈ allSafeExtensions ∧
    ((scanBuffer [9, 0x4d, 0x5a] "a.jpg" = ScanResult.infected ↔
        (peSignature <:+: [9, 0x4d, 0x5a] ∨
          elfSignature <:+: [9, 0x4d, 0x5a])) ∧
      (scanBuffer [9, 0x4d, 0x5a] "a.jpg" = ScanResult.clean ↔
        ¬ (peSignature <:+: [9, 0x4d, 0x5a] ∨
            elfSignature <:+: [9, 0x4d, 0x5a]))) :=
  ⟨by decide, scan_safe_container_signature [9, 0x4d, 0x5a] "a.jpg" (by decide)⟩

/-- Structure of the per-file loop: folding `processFile` decomposes into
the per-file contributions, in submission order. -/
theorem foldl_processFile (uid : String) (files : List JsFile)
    (acc : BatchAcc) :
    files.foldl (processFile uid) acc =
      { uploadedFiles := acc.uploadedFiles ++ files.filterMap uploadedOf,
        blockedFiles := acc.blockedFiles ++ files.filterMap blockedEntryOf,
        totalUploadedSize := acc.totalUploadedSize + storedTotal files,
        objectWrites := acc.objectWrites + writesTotal files,
        records := acc.records ++ files.filterMap (recordOf uid) } := by
  induction files generalizing acc with
  | nil => simp [storedTotal, writesTotal]
  | cons f fs ih =>
    simp only [List.foldl_cons, ih, List.filterMap_cons, storedTotal,
      writesTotal]
    by_cases h1 : scanBuffer f.content f.name = ScanResult.infected
    · simp [processFile, uploadedOf, blockedEntryOf, recordOf, storedSize,
        storedWrites, h1]
    · by_cases h2 : f.procFails = true
      · simp [processFile, uploadedOf, blockedEntryOf, recordOf, storedSize,
          storedWrites, h1, h2]
      · simp only [Bool.not_eq_true] at h2
        simp [processFile, uploadedOf, blockedEntryOf, recordOf, storedSize,
          storedWrites, h1, h2, Nat.add_assoc, List.append_assoc]

/-- Counts of per-file outcomes: every file lands in exactly one of the
uploaded and blocked lists. -/
theorem filterMap_counts (files : List JsFile) :
    (files.filterMap uploadedOf).length
      + (files.filterMap blockedEntryOf).length = files.length := by
  induction files with
  | nil => simp
  | cons f fs ih =>
    simp only [List.filterMap_cons]
    by_cases h1 : scanBuffer f.content f.name = ScanResult.infected
    · simp only [uploadedOf, blockedEntryOf, h1, if_pos]
      simp
      omega
    · by_cases h2 : f.procFails = true
      · simp only [uploadedOf, blockedEntryOf, h1, if_neg, h2]
        simp [h1, h2]
        omega
      · simp only [Bool.not_eq_true] at h2
        simp only [uploadedOf, blockedEntryOf, h1, h2]
        simp [h1, h2]
        omega

/-- Claim C1: for a batch that passes validation and the quota check, the
final `storageUsed` is the initial value plus the sum of the sizes of
exactly the stored-and-recorded files, written by a single update after
the per-file loop. -/
theorem upload_storage_accounting (user : UserRec) (uid : String)
    (files : List JsFile)
    (hne : files ≠ [])
    (hval : (validateBatch files).isValid = true)
    (hquota : user.storageUsed + totalSizeOf files ≤ user.storageLimit) :
    (postUpload user uid files).userAfter.storageUsed
        = user.storageUsed + storedTotal files ∧
    (postUpload user uid files).storageUpdates
        = [user.storageUsed + storedTotal files] := by
  have hlen : files.length ≠ 0 := fun hc => hne (List.length_eq_zero.mp hc)
  have hq : ¬ user.storageLimit < user.storageUsed + totalSizeOf files :=
    Nat.not_lt.mpr hquota
  simp only [postUpload]
  rw [if_neg hlen, if_neg (by rw [hval]; decide),
    if_neg hq, foldl_processFile]
  simp [emptyAcc]

/-- Claim C2: a batch failing validation, or exceeding the remaining
quota, is rejected with itemized reasons before any side effect: no
object-store write, no FileRecord, no storage update, user unchanged. -/
theorem upload_reject_no_side_effects (user : UserRec) (uid : String)
    (files : List JsFile)
    (hne : files ≠ [])
    (h : (validateBatch files).isValid = false ∨
          user.storageLimit < user.storageUsed + totalSizeOf files) :
    (postUpload user uid files).userAfter = user ∧
    (postUpload user uid files).objectWrites = 0 ∧
    (postUpload user uid files).records = [] ∧
    (postUpload user uid files).storageUpdates = [] ∧
    (((postUpload user uid files).status = 400 ∧
        (postUpload user uid files).details = (validateBatch files).errors) ∨
      ((postUpload user uid files).status = 413 ∧
        (postUpload user uid files).details =
          ["Total size: " ++ toString (totalSizeOf files) ++ " bytes",
           "Available: " ++ toString ((user.storageLimit : Int)
              - (user.storageUsed : Int)) ++ " bytes"])) := by
  have hlen : files.length ≠ 0 := fun hc => hne (List.length_eq_zero.mp hc)
  simp only [postUpload]
  rw [if_neg hlen]
  by_cases hv : (validateBatch files).isValid = false
  · rw [if_pos hv]
    exact ⟨rfl, rfl, rfl, rfl, Or.inl ⟨rfl, rfl⟩⟩
  · rw [if_neg hv]
    have hq : user.storageLimit < user.storageUsed + totalSizeOf files := by
      rcases h with h | h
      · exact absurd h hv
      · exact h
    rw [if_pos hq]
    exact ⟨rfl, rfl, rfl, rfl, Or.inr ⟨rfl, rfl⟩⟩

/- Demo batch for the C1 and C2 witnesses. -/

def demoJpg : JsFile :=
  { name := "a.jpg", size := 100, type := "image/jpeg",
    content := [1, 2, 3], procFails := false }

def demoPdf : JsFile :=
  { name := "c.pdf", size := 50, type := "application/pdf",
    content := [4, 5], procFails := false }

def demoVirusJs : JsFile :=
  { name := "virus.js", size := 7, type := "text/plain",
    content := [1], procFails := false }

def demoUser : UserRec := { storageUsed := 10, storageLimit := 100000 }

/-- Witness for C1 on a concrete accepted batch: the clean jpg and pdf
are charged, the scan-blocked `virus.js` is not. -/
theorem upload_storage_accounting_witness :
    ([demoJpg, demoVirusJs, demoPdf] ≠ ([] : List JsFile)) ∧
    (validateBatch [demoJpg, demoVirusJs, demoPdf]).isValid = true ∧
    demoUser.storageUsed + totalSizeOf [demoJpg, demoVirusJs, demoPdf]
        ≤ demoUser.storageLimit ∧
    ((postUpload demoUser "u1" [demoJpg, demoVirusJs, demoPdf]).userAfter.storageUsed
        = demoUser.storageUsed + storedTotal [demoJpg, demoVirusJs, demoPdf] ∧
      (postUpload demoUser "u1" [demoJpg, demoVirusJs, demoPdf]).storageUpdates
        = [demoUser.storageUsed + storedTotal [demoJpg, demoVirusJs, demoPdf]]) :=
  ⟨by decide, by decide, by decide,
    upload_storage_accounting demoUser "u1" [demoJpg, demoVirusJs, demoPdf]
      (by decide) (by decide) (by decide)⟩

/-- A user already near the limit, for the C2 witness. -/
def demoPoorUser : UserRec := { storageUsed := 60, storageLimit := 100 }

/-- Witness for C2 on a concrete over-quota batch. -/
theorem upload_reject_no_side_effects_witness :
    ([demoJpg] ≠ ([] : List JsFile)) ∧
    demoPoorUser.storageLimit
        < demoPoorUser.storageUsed + totalSizeOf [demoJpg] ∧
    ((postUpload demoPoorUser "u1" [demoJpg]).userAfter = demoPoorUser ∧
      (postUpload demoPoorUser "u1" [demoJpg]).objectWrites = 0 ∧
      (postUpload demoPoorUser "u1" [demoJpg]).records = [] ∧
      (postUpload demoPoorUser "u1" [demoJpg]).storageUpdates = [] ∧
      (((postUpload demoPoorUser "u1" [demoJpg]).status = 400 ∧
          (postUpload demoPoorUser "u1" [demoJpg]).details
            = (validateBatch [demoJpg]).errors) ∨
        ((postUpload demoPoorUser "u1" [demoJpg]).status = 413 ∧
          (postUpload demoPoorUser "u1" [demoJpg]).details =
            ["Total size: " ++ toString (totalSizeOf [demoJpg]) ++ " bytes",
             "Available: " ++ toString ((demoPoorUser.storageLimit : Int)
                - (demoPoorUser.storageUsed : Int)) ++ " bytes"]))) :=
  ⟨by decide, by decide,
    upload_reject_no_side_effects demoPoorUser "u1" [demoJpg]
      (by decide) (Or.inr (by decide))⟩

def demoVirusExe : JsFile :=
  { name := "virus.exe", size := 7, type := "application/pdf",
    content := [1], procFails := false }

/-- Counterexample to claim C3 as stated: a 3-file batch containing a
file named `virus.exe` is rejected by batch validation (the dangerous
name rule), so zero files are processed and the response is a 400, not
`uploadedCount = 2, blockedCount = 1`. -/
theorem upload_virus_exe_rejected_at_validation :
    (postUpload demoUser "u1" [demoJpg, demoVirusExe, demoPdf]).status
        = 400 ∧
    (postUpload demoUser "u1" [demoJpg, demoVirusExe, demoPdf]).uploadedCount
        = 0 ∧
    ¬ ((postUpload demoUser "u1" [demoJpg, demoVirusExe, demoPdf]).uploadedCount
          = 2 ∧
        (postUpload demoUser "u1" [demoJpg, demoVirusExe, demoPdf]).blockedCount
          = 1) := by
  refine ⟨by decide, by decide, by decide⟩

/-- Claim C3 as amended: within an accepted batch, per-file failures
never abort the batch.  Every file contributes, in submission order, its
blocked entry (reason "Virus/malware detected" with its size when the
inline scan is infected, "Upload error" when processing or storage
throws) or its stored FileRecord; infected and errored files produce no
record and no object-store write; uploadedCount and blockedCount
partition the batch. -/
theorem upload_partial_failure_isolated (user : UserRec) (uid : String)
    (files : List JsFile)
    (hne : files ≠ [])
    (hval : (validateBatch files).isValid = true)
    (hquota : user.storageUsed + totalSizeOf files ≤ user.storageLimit) :
    (postUpload user uid files).blockedFiles
        = files.filterMap blockedEntryOf ∧
    (postUpload user uid files).records
        = files.filterMap (recordOf uid) ∧
    (postUpload user uid files).objectWrites = writesTotal files ∧
    (postUpload user uid files).uploadedCount
        + (postUpload user uid files).blockedCount = files.length ∧
    (postUpload user uid files).status = 200 := by
  have hlen : files.length ≠ 0 := fun hc => hne (List.length_eq_zero.mp hc)
  have hq : ¬ user.storageLimit < user.storageUsed + totalSizeOf files :=
    Nat.not_lt.mpr hquota
  simp only [postUpload]
  rw [if_neg hlen, if_neg (by rw [hval]; decide),
    if_neg hq, foldl_processFile]
  simp [emptyAcc, filterMap_counts]

/-- Witness for the amended C3: the 3-file batch with `virus.js` (an
allowed MIME type, scan-blocked extension) yields uploadedCount 2 and
blockedCount 1 with the documented reason. -/
theorem upload_partial_failure_isolated_witness :
    ([demoJpg, demoVirusJs, demoPdf] ≠ ([] : List JsFile)) ∧
    (validateBatch [demoJpg, demoVirusJs, demoPdf]).isValid = true ∧
    demoUser.storageUsed + totalSizeOf [demoJpg, demoVirusJs, demoPdf]
        ≤ demoUser.storageLimit ∧
    (postUpload demoUser "u1" [demoJpg, demoVirusJs, demoPdf]).uploadedCount
        = 2 ∧
    (postUpload demoUser "u1" [demoJpg, demoVirusJs, demoPdf]).blockedCount
        = 1 ∧
    (postUpload demoUser "u1" [demoJpg, demoVirusJs, demoPdf]).blockedFiles
        = [{ name := "virus.js", reason := "Virus/malware detected",
             size := 7 }] ∧
    ((postUpload demoUser "u1" [demoJpg, demoVirusJs, demoPdf]).blockedFiles
        = [demoJpg, demoVirusJs, demoPdf].filterMap blockedEntryOf ∧
      (postUpload demoUser "u1" [demoJpg, demoVirusJs, demoPdf]).records
        = [demoJpg, demoVirusJs, demoPdf].filterMap (recordOf "u1") ∧
      (postUpload demoUser "u1" [demoJpg, demoVirusJs, demoPdf]).objectWrites
        = writesTotal [demoJpg, demoVirusJs, demoPdf] ∧
      (postUpload demoUser "u1" [demoJpg, demoVirusJs, demoPdf]).uploadedCount
          + (postUpload demoUser "u1" [demoJpg, demoVirusJs, demoPdf]).blockedCount
        = ([demoJpg, demoVirusJs, demoPdf] : List JsFile).length ∧
      (postUpload demoUser "u1" [demoJpg, demoVirusJs, demoPdf]).status
        = 200) :=
  ⟨by decide, by decide, by decide, by decide, by decide, by decide,
    upload_partial_failure_isolated demoUser "u1"
      [demoJpg, demoVirusJs, demoPdf] (by decide) (by decide) (by decide)⟩

/-- Membership is preserved by the uploadedAt sort (it is a
permutation). -/
theorem mem_sortByUploadedDesc {f : FileDoc} {docs : List FileDoc} :
    f ∈ sortByUploadedDesc docs ↔ f ∈ docs :=
  List.mem_insertionSort _

/-- Every document with the deleted id is marked deleted (with the
deletion timestamp) by `filesDelete`, and every other document is kept
as it was. -/
theorem mem_filesDelete_id {docs : List FileDoc} {i : String} {now : Nat}
    {f : FileDoc} (hf : f ∈ filesDelete docs i now)
    (hid : streq f.id i = true) :
    f.isDeleted = true ∧ f.deletedAt = some now := by
  simp only [filesDelete, List.mem_map] at hf
  obtain ⟨g, _, hg⟩ := hf
  by_cases hgi : streq g.id i = true
  · rw [if_pos hgi] at hg
    subst hg
    exact ⟨rfl, rfl⟩
  · rw [if_neg hgi] at hg
    subst hg
    exact absurd hid hgi

/-- Elements returned by `filesFindByUserId` come from the collection
and are not deleted. -/
theorem mem_filesFindByUserId {docs : List FileDoc} {uid : String}
    {limit skip : Option Nat} {f : FileDoc}
    (hf : f ∈ filesFindByUserId docs uid limit skip) :
    f ∈ docs ∧ f.isDeleted = false := by
  simp only [filesFindByUserId] at hf
  have hmem : f ∈ sortByUploadedDesc
      (docs.filter (fun f => streq f.userId uid && !f.isDeleted)) := by
    rcases limit with _ | n <;> rcases skip with _ | m <;>
      simp only at hf
    · exact hf
    · exact List.mem_of_mem_drop hf
    · exact List.mem_of_mem_take hf
    · exact List.mem_of_mem_drop (List.mem_of_mem_take hf)
  have hfil := mem_sortByUploadedDesc.mp hmem
  have hmem2 := List.mem_of_mem_filter hfil
  have hp := List.of_mem_filter hfil
  simp only [Bool.and_eq_true] at hp
  refine ⟨hmem2, ?_⟩
  rcases hp with ⟨_, hp2⟩
  simpa using hp2

/-- Elements returned by `filesSearch` come from the collection and are
not deleted. -/
theorem mem_filesSearch {docs : List FileDoc} {uid q : String}
    {limit : Nat} {f : FileDoc}
    (hf : f ∈ filesSearch docs uid q limit) :
    f ∈ docs ∧ f.isDeleted = false := by
  simp only [filesSearch] at hf
  have hmem := mem_sortByUploadedDesc.mp (List.mem_of_mem_take hf)
  have hmem2 := List.mem_of_mem_filter hmem
  have hp := List.of_mem_filter hmem
  simp only [Bool.and_eq_true] at hp
  refine ⟨hmem2, ?_⟩
  rcases hp with ⟨⟨_, hp2⟩, _⟩
  simpa using hp2

/-- Claim C10: every read operation on file records filters on
`isDeleted = false`; after a soft delete the record is returned by no
read operation (findById, findByS3Key, findByUserId, search) while it
remains persisted, marked with `isDeleted` and `deletedAt`. -/
theorem soft_delete_hides_record (docs : List FileDoc) (i : String)
    (now : Nat) (uid q key : String) (limit skip : Option Nat)
    (lim : Nat) :
    (filesDelete docs i now).length = docs.length ∧
    ((filesDelete docs i now).all (fun f =>
        !(streq f.id i) || (f.isDeleted && f.deletedAt == some now)))
      = true ∧
    filesFindById (filesDelete docs i now) i = none ∧
    ((filesFindByS3Key (filesDelete docs i now) key).all
        (fun f => !(streq f.id i))) = true ∧
    ((filesFindByUserId (filesDelete docs i now) uid limit skip).all
        (fun f => !(streq f.id i))) = true ∧
    ((filesSearch (filesDelete docs i now) uid q lim).all
        (fun f => !(streq f.id i))) = true ∧
    ((filesFindById docs i).all (fun f => !f.isDeleted)) = true ∧
    ((filesFindByS3Key docs key).all (fun f => !f.isDeleted)) = true ∧
    ((filesFindByUserId docs uid limit skip).all
        (fun f => !f.isDeleted)) = true ∧
    ((filesSearch docs uid q lim).all (fun f => !f.isDeleted)) = true := by
  refine ⟨?_, ?_, ?_, ?_, ?_, ?_, ?_, ?_, ?_, ?_⟩
  · simp [filesDelete]
  · rw [List.all_eq_true]
    intro f hf
    by_cases hid : streq f.id i = true
    · have hdel := mem_filesDelete_id hf hid
      simp [hdel.1, hdel.2]
    · simp [hid]
  · simp only [filesFindById, List.find?_eq_none]
    intro f hf
    by_cases hid : streq f.id i = true
    · have hdel := mem_filesDelete_id hf hid
      simp [hdel.1]
    · simp [hid]
  · rcases hfind : filesFindByS3Key (filesDelete docs i now) key with _ | f
    · rfl
    · rw [Option.all_some]
      simp only [filesFindByS3Key] at hfind
      have hmem := List.mem_of_find?_eq_some hfind
      by_cases hid : streq f.id i = true
      · have hdel := mem_filesDelete_id hmem hid
        have hp := List.find?_some hfind
        simp only [Bool.and_eq_true] at hp
        rw [hdel.1] at hp
        simp at hp
      · simpa using hid
  · rw [List.all_eq_true]
    intro f hf
    have hdel := mem_filesFindByUserId hf
    by_cases hid : streq f.id i = true
    · have hmark := mem_filesDelete_id hdel.1 hid
      rw [hmark.1] at hdel
      exact absurd hdel.2 (by simp)
    · simp [hid]
  · rw [List.all_eq_true]
    intro f hf
    have hdel := mem_filesSearch hf
    by_cases hid : streq f.id i = true
    · have hmark := mem_filesDelete_id hdel.1 hid
      rw [hmark.1] at hdel
      exact absurd hdel.2 (by simp)
    · simp [hid]
  · rcases hfind : filesFindById docs i with _ | f
    · rfl
    · rw [Option.all_some]
      simp only [filesFindById] at hfind
      have hp := List.find?_some hfind
      simp only [Bool.and_eq_true] at hp
      simpa using hp.2
  · rcases hfind : filesFindByS3Key docs key with _ | f
    · rfl
    · rw [Option.all_some]
      simp only [filesFindByS3Key] at hfind
      have hp := List.find?_some hfind
      simp only [Bool.and_eq_true] at hp
      simpa using hp.2
  · rw [List.all_eq_true]
    intro f hf
    have h := mem_filesFindByUserId hf
    simp [h.2]
  · rw [List.all_eq_true]
    intro f hf
    have h := mem_filesSearch hf
    simp [h.2]

end CloudStore